import Mathlib

/-!
Shallow embedding of the streaming admission and render-loop core of the
shout-sh repository (Go), together with theorems settling the specification
claims about it.

Machine integers (Go `int64`, `int`) are modelled as `Int`; none of the
properties below comes anywhere near overflow, so no wraparound modulus is
applied.
-/

namespace ShoutSh

/-! ## Data model: `src/types/types.go` -/

/-- `RenderOptions` from `src/types/types.go` (lines 18-26): options for one
render request. -/
structure RenderOptions where
  Font : String
  Color : String
  MaxWidth : Int
  Timeout : Int
  Speed : Int
  Align : String
  Border : String
deriving Repr, DecidableEq

/-- `ConnectionManager` from `src/types/types.go` (lines 40-43): a bounded
counter of concurrently active streams. -/
structure ConnectionManager where
  activeStreams : Int
  maxStreams : Int
deriving Repr, DecidableEq

/-- `NewConnectionManager` from `src/types/types.go` (lines 56-60):
`activeStreams` starts at the Go zero value 0. -/
def NewConnectionManager (maxStreams : Int) : ConnectionManager :=
  { activeStreams := 0, maxStreams := maxStreams }

/-- `TryAcquire` from `src/types/types.go` (lines 73-80), as executed by a
single thread with no interference: load `activeStreams` into `current`; if
`current >= maxStreams` return `false` leaving the state unchanged; otherwise
add 1 and return `true`. Returns the result together with the new state. -/
def TryAcquire (cm : ConnectionManager) : Bool × ConnectionManager :=
  let current := cm.activeStreams
  if current ≥ cm.maxStreams then
    (false, cm)
  else
    (true, { cm with activeStreams := cm.activeStreams + 1 })

/-- `Release` from `src/types/types.go` (lines 88-90): unconditionally
`atomic.AddInt64(&cm.activeStreams, -1)` — there is no check that the count
is positive. -/
def Release (cm : ConnectionManager) : ConnectionManager :=
  { cm with activeStreams := cm.activeStreams - 1 }

/-- `GetActiveCount` from `src/types/types.go` (lines 101-103). -/
def GetActiveCount (cm : ConnectionManager) : Int :=
  cm.activeStreams

/-! ## Interleaving model of concurrent `TryAcquire`

`TryAcquire` performs two separate atomic operations on the shared counter:
an `atomic.LoadInt64` and, after a purely local comparison against the loaded
value, an `atomic.AddInt64`. Between those two operations other threads may
act on the counter. A thread is therefore a two-step program:
  * `start  --load-->  loaded current` (reads the shared counter), then
  * `loaded current --decide-->  done result` (if the *loaded* value is
    `≥ maxStreams`, finish with `false` and leave the counter alone;
    otherwise atomically add 1 and finish with `true`).
The decision in the second step uses the stale loaded value, exactly as the
Go code does. -/

/-- Program counter of one thread running `TryAcquire`. -/
inductive ThreadPC where
  | start
  | loaded (current : Int)
  | done (result : Bool)
deriving Repr, DecidableEq

/-- One atomic step of a thread running `TryAcquire` (see above): returns the
new program counter and the new value of the shared counter. A finished
thread does not move. -/
def threadStep (max shared : Int) : ThreadPC → ThreadPC × Int
  | .start => (.loaded shared, shared)
  | .loaded current =>
      if current ≥ max then (.done false, shared) else (.done true, shared + 1)
  | .done r => (.done r, shared)

/-- State of two threads concurrently executing `TryAcquire` on one shared
`ConnectionManager`. -/
structure RaceState where
  shared : Int
  maxStreams : Int
  pc1 : ThreadPC
  pc2 : ThreadPC
deriving Repr, DecidableEq

/-- Let the scheduled thread (`true` = thread 1, `false` = thread 2) perform
its next atomic step. -/
def raceStep (s : RaceState) (tid : Bool) : RaceState :=
  if tid then
    let p := threadStep s.maxStreams s.shared s.pc1
    { s with pc1 := p.1, shared := p.2 }
  else
    let p := threadStep s.maxStreams s.shared s.pc2
    { s with pc2 := p.1, shared := p.2 }

/-- Run a schedule (an interleaving of the two threads) to completion. -/
def runSchedule (s : RaceState) (sched : List Bool) : RaceState :=
  sched.foldl raceStep s

/-- Initial state: a fresh `ConnectionManager` with the given capacity and
both threads about to call `TryAcquire`. -/
def initRace (max : Int) : RaceState :=
  { shared := 0, maxStreams := max, pc1 := .start, pc2 := .start }

/-! ## Sequential call sequences on a `ConnectionManager`

For the counting invariant (spec §8) we model a sequential execution as a
list of operations applied in order, tracking the number of successful
`TryAcquire` calls and the number of `Release` calls. -/

/-- One sequential operation on a `ConnectionManager`. -/
inductive CMOp where
  | tryAcquire
  | release
deriving Repr, DecidableEq

/-- Apply one operation to (state, #successful acquires, #releases). -/
def applyOp : ConnectionManager × Nat × Nat → CMOp → ConnectionManager × Nat × Nat
  | (cm, acq, rel), .tryAcquire =>
      let r := TryAcquire cm
      (r.2, if r.1 then acq + 1 else acq, rel)
  | (cm, acq, rel), .release => (Release cm, acq, rel + 1)

/-- Run a list of operations from a given state, counting successful
acquires and releases. -/
def runOps (cm : ConnectionManager) (ops : List CMOp) : ConnectionManager × Nat × Nat :=
  ops.foldl applyOp (cm, 0, 0)

/-- "Each `Release` is matched to a prior successful `TryAcquire`": at every
prefix of the sequence, the number of releases does not exceed the number of
successful acquires. -/
def MatchedOps (cm : ConnectionManager) (ops : List CMOp) : Prop :=
  ∀ n, n ≤ ops.length → (runOps cm (ops.take n)).2.2 ≤ (runOps cm (ops.take n)).2.1

instance (cm : ConnectionManager) (ops : List CMOp) : Decidable (MatchedOps cm ops) :=
  inferInstanceAs (Decidable (∀ n, n ≤ ops.length → _ ≤ _))

/-! ## Font cache: `src/render/fonts.go`

The Go `map[string]*Font` is modelled as an association list in which
assignment replaces an existing binding. The filesystem consulted by
`ValidateFont` is modelled as a map from paths to the kind of entry found
there (`none` = no such file). `Font.Render` opens the font file and runs an
external FIGlet engine; the glyph engine is therefore a parameter
`figlet : Font → String → Except String String` of the functions that render
(the spec's §1 non-goals treat font file parsing as an external solved
routine). -/

/-- `Font` from `src/render/fonts.go` (lines 23-26). -/
structure Font where
  Name : String
  fontPath : String
deriving Repr, DecidableEq

/-- Lookup in the Go map `fonts map[string]*Font`: `none` plays the role of
`exists == false`. -/
def lookupFont : List (String × Font) → String → Option Font
  | [], _ => none
  | (k, v) :: rest, name => if k = name then some v else lookupFont rest name

/-- Assignment `fc.fonts[name] = f` in the Go map: replace an existing
binding for `name`, or append a new one. -/
def insertFont : List (String × Font) → String → Font → List (String × Font)
  | [], name, f => [(name, f)]
  | (k, v) :: rest, name, f =>
      if k = name then (name, f) :: rest else (k, v) :: insertFont rest name f

/-- `FontCache` from `src/render/fonts.go` (lines 74-77). The `sync.RWMutex`
guards the map; in this sequential model the map itself is the state. -/
structure FontCache where
  fonts : List (String × Font)
deriving Repr, DecidableEq

/-- `NewFontCache` from `src/render/fonts.go` (lines 87-91): an empty map. -/
def NewFontCache : FontCache :=
  { fonts := [] }

/-- `GetFont` from `src/render/fonts.go` (lines 153-159): the Go pair
`(font, exists)` is collapsed into an `Option Font`. -/
def GetFont (fc : FontCache) (name : String) : Option Font :=
  lookupFont fc.fonts name

/-- `GetFontOrDefault` from `src/render/fonts.go` (lines 178-191): the named
font if present, else the default font if present, else `none` (Go `nil`). -/
def GetFontOrDefault (fc : FontCache) (name defaultName : String) : Option Font :=
  match lookupFont fc.fonts name with
  | some font => some font
  | none =>
      match lookupFont fc.fonts defaultName with
      | some font => some font
      | none => none

/-- Insert a string into an already-sorted list, keeping it sorted. -/
def insertSorted (s : String) : List String → List String
  | [] => [s]
  | x :: xs => if s ≤ x then s :: x :: xs else x :: insertSorted s xs

/-- `sort.Strings`: sort a list of strings in ascending order (insertion
sort; the ordering, not the algorithm, is what `ListFonts` promises). -/
def sortStrings (l : List String) : List String :=
  l.foldr insertSorted []

/-- `ListFonts` from `src/render/fonts.go` (lines 204-215): the sorted list
of loaded font names. -/
def ListFonts (fc : FontCache) : List String :=
  sortStrings (fc.fonts.map Prod.fst)

/-- Kind of filesystem entry found at a path, for `ValidateFont`'s three
checks (`os.Stat` existence, `IsDir`, `os.Open` readability). -/
inductive FileKind where
  | regular (readable : Bool)
  | directory
deriving Repr, DecidableEq

/-- A filesystem: what, if anything, sits at each path. -/
def FileSystem : Type := String → Option FileKind

/-- `ValidateFont` from `src/render/fonts.go` (lines 233-254): error if the
file is missing, is a directory, or cannot be opened for reading. -/
def ValidateFont (fs : FileSystem) (path : String) : Except String Unit :=
  match fs path with
  | none => .error ("font file does not exist: " ++ path)
  | some .directory => .error ("font path is a directory, not a file: " ++ path)
  | some (.regular false) => .error ("cannot read font file: " ++ path)
  | some (.regular true) => .ok ()

/-- `config.FontConfig` from `src/config/config.go` (lines 45-49): the font
directory and the allow-list of font names. -/
structure FontConfig where
  Path : String
  Allowed : List String
deriving Repr, DecidableEq

/-- `filepath.Join(cfg.Path, fontName + ".flf")` for the plain relative
paths used here: directory, separator, filename. -/
def filepathJoin (dir name : String) : String :=
  dir ++ "/" ++ name

/-- One iteration of the `LoadFonts` loop body (`src/render/fonts.go` lines
115-132): validate `dir/fontName.flf`; on error log a warning and `continue`
(state unchanged); on success store the font under its name and bump
`loadedCount`. -/
def loadFontStep (fs : FileSystem) (dir : String) (acc : FontCache × Nat)
    (fontName : String) : FontCache × Nat :=
  let fontPath := filepathJoin dir (fontName ++ ".flf")
  match ValidateFont fs fontPath with
  | .error _ => acc
  | .ok _ => (⟨insertFont acc.1.fonts fontName ⟨fontName, fontPath⟩⟩, acc.2 + 1)

/-- `LoadFonts` from `src/render/fonts.go` (lines 109-136): fold the loop
body over the allowed names, starting from the given cache and
`loadedCount = 0`. Always returns `nil` error (`none`) — a failed name never
aborts the population. Result: (cache, loadedCount, error). -/
def LoadFonts (fs : FileSystem) (fc : FontCache) (cfg : FontConfig) :
    FontCache × Nat × Option String :=
  let r := cfg.Allowed.foldl (loadFontStep fs cfg.Path) (fc, 0)
  (r.1, r.2, none)

/-! ## Render function: `src/render/figlet.go` -/

/-- `DefaultFont` from `src/render/figlet.go` (line 9). -/
def DefaultFont : String := "standard"

/-- The error outcomes of `GenerateASCII`, distinguished by their Go error
messages. -/
inductive RenderErr where
  | nilCache
  | noFontsLoaded
  | renderFailed (msg : String)
deriving Repr, DecidableEq

/-- `GenerateASCII` from `src/render/figlet.go` (lines 32-56): reject a nil
cache; return empty output for empty text; resolve the font via
`GetFontOrDefault(opts.Font, DefaultFont)`, failing if no font resolves;
otherwise run the glyph engine, wrapping its failure. The glyph engine
(`Font.Render`'s FIGlet call) is the parameter `figlet`. -/
def GenerateASCII (figlet : Font → String → Except String String)
    (text : String) (opts : RenderOptions) (cache : Option FontCache) :
    Except RenderErr String :=
  match cache with
  | none => .error .nilCache
  | some c =>
      if text = "" then .ok ""
      else
        match GetFontOrDefault c opts.Font DefaultFont with
        | none => .error .noFontsLoaded
        | some font =>
            match figlet font text with
            | .error e => .error (.renderFailed e)
            | .ok ascii => .ok ascii

/-! ## Streaming handler and timeouts: `src/unnamed/part_002`

`src/unnamed/part_002` is the implementation guide holding the Go source of
`partyHandler`, `streamAnimated`, `validateOptions`, `calculateFrameDelay`,
`cleanForFiglet` and the timeout constants. Durations are modelled in whole
seconds (the handler itself converts them with `.Seconds()`), except the
frame delay, which is modelled in milliseconds as computed by
`calculateFrameDelay`. -/

/-- `DefaultStreamTimeout = 5 * time.Minute` (`part_002` line 370), in
seconds. -/
def DefaultStreamTimeoutSec : Int := 300

/-- `MinSpeed = 1` (`part_002` line 374). -/
def MinSpeed : Int := 1

/-- `MaxSpeed = 10` (`part_002` line 375). -/
def MaxSpeed : Int := 10

/-- `calculateFrameDelay` (`part_002` lines 652-663): clamp the speed to
`[MinSpeed, MaxSpeed]`, then delay = `220 - speed*20` milliseconds. -/
def calculateFrameDelay (speed : Int) : Int :=
  let speed := if speed < MinSpeed then MinSpeed else speed
  let speed := if speed > MaxSpeed then MaxSpeed else speed
  220 - speed * 20

/-- `validateOptions` (`part_002` lines 695-718): reject an unknown non-empty
font, a speed outside `[0, MaxSpeed]`, and an unknown non-empty alignment. -/
def validateOptions (opts : RenderOptions) : Except String Unit :=
  let validFonts : List String :=
    ["doom", "3d", "big", "bloody", "standard", "slant", "small", "shadow"]
  if opts.Font ≠ "" ∧ opts.Font ∉ validFonts then
    .error ("invalid font: " ++ opts.Font)
  else if opts.Speed < 0 ∨ opts.Speed > MaxSpeed then
    .error "speed must be between 1 and 10"
  else
    let validAligns : List String := ["left", "center", "right"]
    if opts.Align ≠ "" ∧ opts.Align ∉ validAligns then
      .error ("invalid alignment: " ++ opts.Align)
    else
      .ok ()

/-- `cleanForFiglet` (`part_002` lines 1190-1207): keep printable ASCII
(32-126) plus newline and tab, drop everything else, then truncate to 100
bytes (all kept characters are single-byte, so 100 characters). -/
def cleanForFiglet (text : String) : String :=
  ⟨(text.data.filter fun r =>
      (32 ≤ r.toNat ∧ r.toNat ≤ 126) ∨ r = '\n' ∨ r = '\t').take 100⟩

/-- `strings.ReplaceAll(text, "+", " ")` in `partyHandler`. -/
def replacePlus (text : String) : String :=
  ⟨text.data.map fun c => if c = '+' then ' ' else c⟩

/-- The "apply timeout limits" step of `partyHandler` (`part_002` lines
871-873): if the request specifies no timeout (0) or one above the server
maximum, replace it with the default stream timeout. -/
def applyTimeoutLimits (maxStreamDurationSec t : Int) : Int :=
  if t = 0 ∨ t > maxStreamDurationSec then DefaultStreamTimeoutSec else t

/-- The timeout computation of `streamAnimated` (`part_002` lines 900-908):
start from the default; if the (already limited) requested timeout is
positive, use it, capped at the server maximum. -/
def streamTimeoutDuration (maxStreamDurationSec t : Int) : Int :=
  if t > 0 then
    if t > maxStreamDurationSec then maxStreamDurationSec else t
  else
    DefaultStreamTimeoutSec

/-- The effective deadline of an animated stream: the request's timeout after
`partyHandler`'s limiting step, then `streamAnimated`'s capping step. -/
def effectiveDeadline (maxStreamDurationSec t : Int) : Int :=
  streamTimeoutDuration maxStreamDurationSec (applyTimeoutLimits maxStreamDurationSec t)

/-- The spec's words for the deadline (for comparison with
`effectiveDeadline`, which is translated from the code): "the minimum of the
requested timeout and the server maximum, substituting the server default
when the request specifies no timeout". -/
def specEffectiveDeadline (maxStreamDurationSec serverDefaultSec t : Int) : Int :=
  min (if t = 0 then serverDefaultSec else t) maxStreamDurationSec

/-- Which of the three raced events ends the streaming loop of
`streamAnimated` (`part_002` lines 916-946): the deadline timer firing, a
failed flush (client disconnected), or a fault inside the loop body. -/
inductive ExitEvent where
  | timeoutExpired
  | clientDisconnected
  | fault
deriving Repr, DecidableEq

/-- Outcome of `partyHandler`, by response class. -/
inductive PartyResult where
  | rejected503
  | badRequest400 (msg : String)
  | renderError500
  | streamed (exit : ExitEvent)
deriving Repr, DecidableEq

/-- `streamAnimated` (`part_002` lines 879-948), at the granularity the
release-pairing claim needs: a failed render is a 500 response; otherwise the
loop streams frames until one of the raced events fires. The render outcome
and the terminating event are inputs (the glyph engine and the client are
external collaborators). `streamAnimated` never touches the admission
counter. -/
def streamAnimated (renderResult : Except String String) (exitEv : ExitEvent) :
    PartyResult :=
  match renderResult with
  | .error _ => .renderError500
  | .ok _ => .streamed exitEv

/-- `partyHandler` (`part_002` lines 839-877): `TryAcquire`; on failure
respond 503 without touching anything else; on success `defer Release` —
every exit of the remaining body, normal or faulting, is followed by exactly
one `Release`. The body checks the raw text, cleans it, validates the
options, applies the timeout limits and calls `streamAnimated`. Returns the
response, the final admission state, and the number of `Release` calls
performed (metric counters are elided). -/
def partyHandler (cm : ConnectionManager) (maxStreamDurationSec : Int)
    (text : String) (opts : RenderOptions)
    (renderResult : Except String String) (exitEv : ExitEvent) :
    PartyResult × ConnectionManager × Nat :=
  let a := TryAcquire cm
  if a.1 then
    -- defer connManager.Release() is now armed
    let body : PartyResult :=
      if text = "" then .badRequest400 "No text provided"
      else
        let cleaned := cleanForFiglet (replacePlus text)
        if cleaned.length = 0 then .badRequest400 "Text contains no valid characters"
        else
          match validateOptions opts with
          | .error e => .badRequest400 ("Error: " ++ e)
          | .ok _ =>
              let _limitedTimeout := applyTimeoutLimits maxStreamDurationSec opts.Timeout
              streamAnimated renderResult exitEv
    (body, Release a.2, 1)
  else
    (.rejected503, a.2, 0)

/-! ## Auxiliary concrete values used by witnesses and counterexamples -/

/-- A glyph engine that echoes its input; any concrete engine does for the
claims, which never depend on the glyph output. -/
def echoFiglet : Font → String → Except String String :=
  fun _ text => .ok text

/-- A concrete zero-valued `RenderOptions`. -/
def sampleOpts : RenderOptions :=
  { Font := "", Color := "", MaxWidth := 0, Timeout := 0, Speed := 0,
    Align := "", Border := "" }

/-- A concrete options value asking for a font that is not loaded. -/
def missingFontOpts : RenderOptions :=
  { sampleOpts with Font := "nope" }

/-- A one-font cache holding only the default font. -/
def oneFontCache : FontCache :=
  ⟨[("standard", ⟨"standard", "./fonts/standard.flf"⟩)]⟩

/-- `fontValidates fs dir name` is true when `ValidateFont` accepts
`dir/name.flf` — the per-name success condition of `LoadFonts`. -/
def fontValidates (fs : FileSystem) (dir name : String) : Bool :=
  match ValidateFont fs (filepathJoin dir (name ++ ".flf")) with
  | .ok _ => true
  | .error _ => false

/-- The spec §8 scenario configuration: allowed names
`["standard", "doom", "missing-file"]` under `./fonts`. -/
def scenarioCfg : FontConfig :=
  { Path := "./fonts", Allowed := ["standard", "doom", "missing-file"] }

/-- The spec §8 scenario filesystem: `standard.flf` and `doom.flf` exist and
are readable; `missing-file.flf` (and everything else) does not exist. -/
def scenarioFS : FileSystem := fun path =>
  if path = "./fonts/standard.flf" ∨ path = "./fonts/doom.flf" then
    some (.regular true)
  else
    none

/-!
# Theorems
-/

/-! ## Helper lemmas -/

/-- Sanity link between the interleaving model and the sequential function:
one thread running its two atomic steps alone, with no interference in
between, computes exactly `TryAcquire`. -/
theorem threadStep_alone_eq_tryAcquire (max shared : Int) :
    (let s1 := threadStep max shared .start
     let s2 := threadStep max s1.2 s1.1
     s2.1 = .done (TryAcquire ⟨shared, max⟩).1 ∧
     s2.2 = (TryAcquire ⟨shared, max⟩).2.activeStreams) := by
  simp only [threadStep, TryAcquire]
  by_cases h : shared ≥ max
  · simp [h]
  · simp [h]

/-- A successful `TryAcquire` increments the counter by one. -/
theorem tryAcquire_true_activeStreams (cm : ConnectionManager)
    (h : (TryAcquire cm).1 = true) :
    (TryAcquire cm).2.activeStreams = cm.activeStreams + 1 := by
  unfold TryAcquire at *
  by_cases hc : cm.activeStreams ≥ cm.maxStreams
  · simp [hc] at h
  · simp [hc]

/-- If the requested name is absent, `GetFontOrDefault` resolves to the
default lookup. -/
theorem getFontOrDefault_of_missing (c : FontCache) (name d : String)
    (h : GetFont c name = none) :
    GetFontOrDefault c name d = GetFont c d := by
  unfold GetFontOrDefault
  unfold GetFont at h
  rw [h]
  unfold GetFont
  cases lookupFont c.fonts d <;> rfl

/-- `GetFontOrDefault` with the default name requested resolves to the
default lookup. -/
theorem getFontOrDefault_self (c : FontCache) (d : String) :
    GetFontOrDefault c d d = GetFont c d := by
  unfold GetFontOrDefault GetFont
  cases lookupFont c.fonts d <;> rfl

/-! ## Claim theorems -/

/-- C1: the claim says no two concurrent `TryAcquire` calls may both observe
capacity and both succeed when only one slot remains. The code violates this:
with `maxStreams = 1`, the interleaving "thread 1 loads, thread 2 loads,
thread 1 adds, thread 2 adds" lets both calls return `true` and drives the
active-stream count to 2, strictly above `maxStreams`. This theorem evaluates
the two-thread interleaving model of `TryAcquire` at that schedule. -/
theorem C1_concurrent_over_admission :
    (runSchedule (initRace 1) [true, false, true, false]).pc1 = .done true ∧
    (runSchedule (initRace 1) [true, false, true, false]).pc2 = .done true ∧
    (runSchedule (initRace 1) [true, false, true, false]).maxStreams <
      (runSchedule (initRace 1) [true, false, true, false]).shared := by
  decide

/-- C3: in a sequential execution, `TryAcquire` below capacity increments the
count and returns `true`; at or above capacity it returns `false` and leaves
the state unchanged. With capacity 2: two acquires succeed, a third fails,
and after one `Release` a fourth succeeds. -/
theorem C3_tryAcquire_sequential :
    (∀ cm : ConnectionManager,
      (cm.activeStreams < cm.maxStreams →
        TryAcquire cm = (true, { cm with activeStreams := cm.activeStreams + 1 })) ∧
      (cm.maxStreams ≤ cm.activeStreams → TryAcquire cm = (false, cm))) ∧
    ((TryAcquire (NewConnectionManager 2)).1 = true ∧
      (TryAcquire (TryAcquire (NewConnectionManager 2)).2).1 = true ∧
      (TryAcquire (TryAcquire (TryAcquire (NewConnectionManager 2)).2).2).1 = false ∧
      (TryAcquire (Release
        (TryAcquire (TryAcquire (TryAcquire (NewConnectionManager 2)).2).2).2)).1 = true) := by
  constructor
  · intro cm
    constructor
    · intro h
      simp [TryAcquire, not_le.mpr h]
    · intro h
      simp [TryAcquire, h]
  · decide

/-- Witness for C3 at concrete states: a manager with 0 of 2 slots used
acquires successfully; a manager with 2 of 2 slots used is refused
unchanged. -/
theorem C3_tryAcquire_sequential_witness :
    TryAcquire (NewConnectionManager 2) =
      (true, { NewConnectionManager 2 with
                activeStreams := (NewConnectionManager 2).activeStreams + 1 }) ∧
    TryAcquire (ConnectionManager.mk 2 2) = (false, ConnectionManager.mk 2 2) :=
  ⟨(C3_tryAcquire_sequential.1 (NewConnectionManager 2)).1 (by decide),
   (C3_tryAcquire_sequential.1 (ConnectionManager.mk 2 2)).2 (by decide)⟩

/-- C10: `Release` decrements the count by exactly one, unconditionally and
with no lower bound: a single `Release` on a fresh `ConnectionManager` (for
any capacity) leaves `GetActiveCount` at -1. -/
theorem C10_release_unconditional :
    (∀ cm : ConnectionManager, (Release cm).activeStreams = cm.activeStreams - 1) ∧
    (∀ max : Int, GetActiveCount (Release (NewConnectionManager max)) = -1) := by
  constructor
  · intro cm
    rfl
  · intro max
    rfl

/-- C5 counterexample: the claim as stated quantifies over every input text,
but with the empty text `GenerateASCII` returns empty output and no error
even on a non-nil cache containing zero fonts — the empty-text check precedes
the font lookup, so no `NoFontsLoaded` error is produced. -/
theorem C5_counterexample_empty_text :
    GenerateASCII echoFiglet "" sampleOpts (some NewFontCache) = Except.ok "" ∧
    GenerateASCII echoFiglet "" sampleOpts (some NewFontCache) ≠
      Except.error RenderErr.noFontsLoaded := by
  constructor
  · rfl
  · intro h
    exact Except.noConfusion h

/-- C5 (amended): with a nil/absent cache, `GenerateASCII` always fails with
the nil-cache error, for every text; with a non-nil cache containing zero
fonts it fails with the no-fonts-loaded error for every *non-empty* text. -/
theorem C5_nil_and_empty_cache (figlet : Font → String → Except String String)
    (text : String) (opts : RenderOptions) :
    GenerateASCII figlet text opts none = .error .nilCache ∧
    (text ≠ "" → ∀ c : FontCache, c.fonts = [] →
      GenerateASCII figlet text opts (some c) = .error .noFontsLoaded) := by
  constructor
  · rfl
  · intro ht c hc
    simp only [GenerateASCII, GetFontOrDefault, hc, lookupFont, if_neg ht]

/-- Witness for C5 at a concrete non-empty text and the fresh empty cache. -/
theorem C5_nil_and_empty_cache_witness :
    GenerateASCII echoFiglet "HI" sampleOpts (some NewFontCache) =
      Except.error RenderErr.noFontsLoaded :=
  (C5_nil_and_empty_cache echoFiglet "HI" sampleOpts).2 (by decide) NewFontCache rfl

/-- C6: `GenerateASCII` on the empty string returns empty output and no
error, for every glyph engine, every options value and every (non-nil)
cache. -/
theorem C6_empty_text_empty_output (figlet : Font → String → Except String String)
    (opts : RenderOptions) (c : FontCache) :
    GenerateASCII figlet "" opts (some c) = .ok "" := by
  unfold GenerateASCII
  simp

/-- C7: if the requested font is not in the cache, `GenerateASCII` returns
the same output as with the font field set to the default font name (here
under the loaded-default hypothesis the claim states; the fallback in
`GetFontOrDefault` resolves both calls to the same font). -/
theorem C7_unknown_font_same_as_default (figlet : Font → String → Except String String)
    (text : String) (c : FontCache) (opts : RenderOptions)
    (hmiss : GetFont c opts.Font = none)
    (_hdef : (GetFont c DefaultFont).isSome = true) :
    GenerateASCII figlet text opts (some c) =
      GenerateASCII figlet text { opts with Font := DefaultFont } (some c) := by
  have hproj : ({ opts with Font := DefaultFont } : RenderOptions).Font = DefaultFont := rfl
  simp only [GenerateASCII, hproj]
  rw [getFontOrDefault_of_missing c opts.Font DefaultFont hmiss,
    getFontOrDefault_self c DefaultFont]

/-- Witness for C7: a cache holding only the default font, a request for the
absent font "nope". -/
theorem C7_unknown_font_same_as_default_witness :
    GenerateASCII echoFiglet "HI" missingFontOpts (some oneFontCache) =
      GenerateASCII echoFiglet "HI" { missingFontOpts with Font := DefaultFont }
        (some oneFontCache) :=
  C7_unknown_font_same_as_default echoFiglet "HI" oneFontCache missingFontOpts
    (by decide) (by decide)

/-- C9 counterexample: the claim says the effective deadline is
`min(requestedTimeout, serverMaxDuration)` (default substituted only at 0),
but with server maximum 600s a requested timeout of 700s yields 300s (the
default), not `min(700, 600) = 600`: `partyHandler` replaces an over-max
request with the *default*, not the maximum. -/
theorem C9_counterexample_over_max_request :
    effectiveDeadline 600 700 = 300 ∧
    specEffectiveDeadline 600 DefaultStreamTimeoutSec 700 = 600 ∧
    effectiveDeadline 600 700 ≠ specEffectiveDeadline 600 DefaultStreamTimeoutSec 700 := by
  decide

/-- C9 (amended): the requested timeout is first replaced by the server
default (300s) when it is 0 *or exceeds the server maximum*; the effective
deadline is the minimum of that value and the server maximum. In particular,
requested 100s with server max 30s yields 30s. -/
theorem C9_effective_deadline (maxSec t : Int) (h : 0 ≤ t) :
    effectiveDeadline maxSec t =
      min (if t = 0 ∨ t > maxSec then DefaultStreamTimeoutSec else t) maxSec ∧
    effectiveDeadline 30 100 = 30 := by
  refine ⟨?_, by decide⟩
  simp only [effectiveDeadline, streamTimeoutDuration, applyTimeoutLimits,
    DefaultStreamTimeoutSec, Int.min_def]
  split_ifs <;> omega

/-- Witness for C9 at the counterexample's numbers: max 600s, requested
700s. -/
theorem C9_effective_deadline_witness :
    effectiveDeadline 600 700 =
      min (if (700 : Int) = 0 ∨ (700 : Int) > 600 then DefaultStreamTimeoutSec else 700) 600 :=
  (C9_effective_deadline 600 700 (by decide)).1

/-- C2: every admitted session (its `TryAcquire` returned `true`) performs
exactly one `Release` and restores the active-stream count, independent of
which exit path `partyHandler` takes: bad-request rejection of the text or
options, render failure, deadline expiry, client disconnect, or a fault in
the loop — the deferred `Release` runs on all of them. -/
theorem C2_admitted_releases_once (cm : ConnectionManager) (maxSec : Int)
    (text : String) (opts : RenderOptions) (renderResult : Except String String)
    (exitEv : ExitEvent) (hadm : (TryAcquire cm).1 = true) :
    (partyHandler cm maxSec text opts renderResult exitEv).2.2 = 1 ∧
    (partyHandler cm maxSec text opts renderResult exitEv).2.1.activeStreams =
      cm.activeStreams := by
  refine ⟨?_, ?_⟩
  · simp [partyHandler, hadm]
  · simp [partyHandler, hadm, Release, tryAcquire_true_activeStreams cm hadm]

/-- Witness for C2: a fresh one-slot manager, a disconnecting client. -/
theorem C2_admitted_releases_once_witness :
    (partyHandler (NewConnectionManager 1) 300 "HI" sampleOpts (Except.ok "art")
        ExitEvent.clientDisconnected).2.2 = 1 ∧
    (partyHandler (NewConnectionManager 1) 300 "HI" sampleOpts (Except.ok "art")
        ExitEvent.clientDisconnected).2.1.activeStreams =
      (NewConnectionManager 1).activeStreams :=
  C2_admitted_releases_once (NewConnectionManager 1) 300 "HI" sampleOpts
    (Except.ok "art") ExitEvent.clientDisconnected (by decide)

/-- `TryAcquire` below capacity: returns `true` and increments. -/
theorem tryAcquire_lt (cm : ConnectionManager) (h : cm.activeStreams < cm.maxStreams) :
    TryAcquire cm = (true, { cm with activeStreams := cm.activeStreams + 1 }) := by
  simp [TryAcquire, not_le.mpr h]

/-- `TryAcquire` at or above capacity: returns `false`, state unchanged. -/
theorem tryAcquire_ge (cm : ConnectionManager) (h : cm.maxStreams ≤ cm.activeStreams) :
    TryAcquire cm = (false, cm) := by
  simp [TryAcquire, h]

/-- `applyOp` on a failing acquire leaves everything unchanged. -/
theorem applyOp_tryAcquire_ge (cm : ConnectionManager) (acq rel : Nat)
    (h : cm.maxStreams ≤ cm.activeStreams) :
    applyOp (cm, acq, rel) .tryAcquire = (cm, acq, rel) := by
  simp only [applyOp, tryAcquire_ge cm h]
  rfl

/-- `applyOp` on a successful acquire increments state and acquire count. -/
theorem applyOp_tryAcquire_lt (cm : ConnectionManager) (acq rel : Nat)
    (h : cm.activeStreams < cm.maxStreams) :
    applyOp (cm, acq, rel) .tryAcquire =
      ({ cm with activeStreams := cm.activeStreams + 1 }, acq + 1, rel) := by
  simp only [applyOp, tryAcquire_lt cm h]
  rfl

/-- `applyOp` on a release. -/
theorem applyOp_release (cm : ConnectionManager) (acq rel : Nat) :
    applyOp (cm, acq, rel) .release = (Release cm, acq, rel + 1) := rfl

/-- Neither `TryAcquire` nor `Release` changes `maxStreams`. -/
theorem applyOp_maxStreams (s : ConnectionManager × Nat × Nat) (op : CMOp) :
    (applyOp s op).1.maxStreams = s.1.maxStreams := by
  rcases s with ⟨cm, acq, rel⟩
  cases op
  · simp only [applyOp, TryAcquire]
    by_cases h : cm.activeStreams ≥ cm.maxStreams <;> simp [h]
  · rfl

/-- The fold underlying `runOps` preserves `maxStreams`. -/
theorem foldl_applyOp_maxStreams :
    ∀ (l : List CMOp) (s : ConnectionManager × Nat × Nat),
      (l.foldl applyOp s).1.maxStreams = s.1.maxStreams
  | [], _ => rfl
  | op :: l, s => by
      rw [List.foldl_cons, foldl_applyOp_maxStreams l (applyOp s op),
        applyOp_maxStreams]

/-- One step of the counting invariant: if the accumulated state satisfies
`active = acquired - released` and `0 ≤ active ≤ max`, and after the step the
releases still do not exceed the successful acquires, the invariant holds
after the step. -/
theorem applyOp_invariant (max : Int) (s : ConnectionManager × Nat × Nat) (op : CMOp)
    (hmax : s.1.maxStreams = max)
    (hcount : s.1.activeStreams = (s.2.1 : Int) - (s.2.2 : Int))
    (hlo : 0 ≤ s.1.activeStreams) (hhi : s.1.activeStreams ≤ max)
    (hrel : (applyOp s op).2.2 ≤ (applyOp s op).2.1) :
    (applyOp s op).1.activeStreams =
      ((applyOp s op).2.1 : Int) - ((applyOp s op).2.2 : Int) ∧
    0 ≤ (applyOp s op).1.activeStreams ∧ (applyOp s op).1.activeStreams ≤ max := by
  rcases s with ⟨cm, acq, rel⟩
  simp only at hmax hcount hlo hhi
  cases op
  case tryAcquire =>
    by_cases h : cm.maxStreams ≤ cm.activeStreams
    · rw [applyOp_tryAcquire_ge cm acq rel h] at hrel ⊢
      exact ⟨hcount, hlo, hhi⟩
    · have h' : cm.activeStreams < cm.maxStreams := lt_of_not_le h
      rw [applyOp_tryAcquire_lt cm acq rel h'] at hrel ⊢
      dsimp only at hrel ⊢
      refine ⟨?_, ?_, ?_⟩ <;> push_cast <;> omega
  case release =>
    rw [applyOp_release cm acq rel] at hrel ⊢
    dsimp only [Release] at hrel ⊢
    refine ⟨?_, ?_, ?_⟩ <;> push_cast <;> omega

/-- C4: for every sequence of `TryAcquire`/`Release` calls in which, at every
prefix, the releases are matched by prior successful acquires, the active
count at every quiescent point equals successful acquires minus releases, and
the invariant `0 ≤ active ≤ maxStreams` holds throughout (for a fresh manager
of non-negative capacity). -/
theorem C4_counting_invariant (max : Int) (ops : List CMOp) (hmax : 0 ≤ max)
    (hm : MatchedOps (NewConnectionManager max) ops) :
    ∀ n, n ≤ ops.length →
      GetActiveCount (runOps (NewConnectionManager max) (ops.take n)).1 =
        ((runOps (NewConnectionManager max) (ops.take n)).2.1 : Int) -
          ((runOps (NewConnectionManager max) (ops.take n)).2.2 : Int) ∧
      0 ≤ GetActiveCount (runOps (NewConnectionManager max) (ops.take n)).1 ∧
      GetActiveCount (runOps (NewConnectionManager max) (ops.take n)).1 ≤ max := by
  intro n
  induction n with
  | zero =>
      intro _
      refine ⟨rfl, le_refl _, hmax⟩
  | succ k ih =>
      intro hn
      have hklt : k < ops.length := hn
      have htake : ops.take (k + 1) = ops.take k ++ [ops[k]] := by
        rw [List.take_succ, List.getElem?_eq_getElem hklt]
        rfl
      have hstep : runOps (NewConnectionManager max) (ops.take (k + 1)) =
          applyOp (runOps (NewConnectionManager max) (ops.take k)) ops[k] := by
        unfold runOps
        rw [htake, List.foldl_append]
        rfl
      obtain ⟨ih1, ih2, ih3⟩ := ih (le_of_lt hklt)
      have hmaxpres :
          (runOps (NewConnectionManager max) (ops.take k)).1.maxStreams = max :=
        foldl_applyOp_maxStreams (ops.take k) (NewConnectionManager max, 0, 0)
      have hrel := hm (k + 1) hn
      rw [hstep] at hrel ⊢
      exact applyOp_invariant max (runOps (NewConnectionManager max) (ops.take k))
        ops[k] hmaxpres ih1 ih2 ih3 hrel

/-- Witness for C4: capacity 2, the sequence acquire-acquire-release, checked
at its final quiescent point. -/
theorem C4_counting_invariant_witness :
    GetActiveCount (runOps (NewConnectionManager 2)
        ([CMOp.tryAcquire, CMOp.tryAcquire, CMOp.release].take 3)).1 =
      ((runOps (NewConnectionManager 2)
          ([CMOp.tryAcquire, CMOp.tryAcquire, CMOp.release].take 3)).2.1 : Int) -
        ((runOps (NewConnectionManager 2)
            ([CMOp.tryAcquire, CMOp.tryAcquire, CMOp.release].take 3)).2.2 : Int) ∧
    0 ≤ GetActiveCount (runOps (NewConnectionManager 2)
        ([CMOp.tryAcquire, CMOp.tryAcquire, CMOp.release].take 3)).1 ∧
    GetActiveCount (runOps (NewConnectionManager 2)
        ([CMOp.tryAcquire, CMOp.tryAcquire, CMOp.release].take 3)).1 ≤ 2 :=
  C4_counting_invariant 2 [CMOp.tryAcquire, CMOp.tryAcquire, CMOp.release]
    (by decide) (by decide) 3 (by decide)

/-- `fontValidates` is `true` exactly when `ValidateFont` accepts the
font's file. -/
theorem fontValidates_true_iff (fs : FileSystem) (dir name : String) :
    fontValidates fs dir name = true ↔
      ValidateFont fs (filepathJoin dir (name ++ ".flf")) = .ok () := by
  unfold fontValidates
  cases hv : ValidateFont fs (filepathJoin dir (name ++ ".flf")) with
  | ok u => cases u; simp
  | error e => simp

/-- Lookup after a Go-map assignment: the assigned name maps to the new
font; every other name is unaffected. -/
theorem lookupFont_insertFont (l : List (String × Font)) (name m : String) (f : Font) :
    lookupFont (insertFont l name f) m =
      if name = m then some f else lookupFont l m := by
  induction l with
  | nil => simp [insertFont, lookupFont]
  | cons kv rest ih =>
      rcases kv with ⟨k, v⟩
      by_cases hk : k = name
      · subst hk
        by_cases hm : k = m
        · subst hm
          simp [insertFont, lookupFont]
        · simp [insertFont, lookupFont, hm]
      · by_cases hm : k = m
        · subst hm
          have hnm : ¬ name = k := fun h => hk h.symm
          simp [insertFont, lookupFont, hk, hnm]
        · simp [insertFont, lookupFont, hk, hm, ih]

/-- After folding the `LoadFonts` loop body over a list of names, a name is
in the cache iff it was there before, or it occurs in the list and its file
validates. -/
theorem foldl_loadFontStep_lookup (fs : FileSystem) (dir : String) :
    ∀ (l : List String) (acc : FontCache × Nat) (name : String),
      (lookupFont (l.foldl (loadFontStep fs dir) acc).1.fonts name).isSome ↔
        (lookupFont acc.1.fonts name).isSome = true ∨
          (name ∈ l ∧ fontValidates fs dir name = true)
  | [], acc, name => by simp
  | a :: l, acc, name => by
      rw [List.foldl_cons,
        foldl_loadFontStep_lookup fs dir l (loadFontStep fs dir acc a) name]
      cases hv : ValidateFont fs (filepathJoin dir (a ++ ".flf")) with
      | error e =>
          have hsa : loadFontStep fs dir acc a = acc := by
            simp only [loadFontStep, hv]
          have hfa : fontValidates fs dir a = false := by
            simp only [fontValidates, hv]
          rw [hsa]
          constructor
          · rintro (h | ⟨hm, hval⟩)
            · exact Or.inl h
            · exact Or.inr ⟨List.mem_cons_of_mem a hm, hval⟩
          · rintro (h | ⟨hm, hval⟩)
            · exact Or.inl h
            · rcases List.mem_cons.mp hm with h1 | h1
              · subst h1
                simp [hfa] at hval
              · exact Or.inr ⟨h1, hval⟩
      | ok u =>
          cases u
          have hsa : loadFontStep fs dir acc a =
              (⟨insertFont acc.1.fonts a ⟨a, filepathJoin dir (a ++ ".flf")⟩⟩,
                acc.2 + 1) := by
            simp only [loadFontStep, hv]
          have hta : fontValidates fs dir a = true := by
            simp only [fontValidates, hv]
          rw [hsa]
          dsimp only
          rw [lookupFont_insertFont]
          by_cases han : a = name
          · subst han
            simp [hta]
          · rw [if_neg han]
            have hmem : name ∈ a :: l ↔ name ∈ l := by
              rw [List.mem_cons]
              constructor
              · rintro (h1 | h1)
                · exact absurd h1.symm han
                · exact h1
              · exact Or.inr
            rw [hmem]

/-- After folding the `LoadFonts` loop body, `loadedCount` has grown by the
number of listed names whose files validate. -/
theorem foldl_loadFontStep_count (fs : FileSystem) (dir : String) :
    ∀ (l : List String) (acc : FontCache × Nat),
      (l.foldl (loadFontStep fs dir) acc).2 =
        acc.2 + (l.filter (fontValidates fs dir)).length
  | [], acc => by simp
  | a :: l, acc => by
      rw [List.foldl_cons,
        foldl_loadFontStep_count fs dir l (loadFontStep fs dir acc a)]
      cases hv : ValidateFont fs (filepathJoin dir (a ++ ".flf")) with
      | error e =>
          have hsa : loadFontStep fs dir acc a = acc := by
            simp only [loadFontStep, hv]
          have hfa : fontValidates fs dir a = false := by
            simp only [fontValidates, hv]
          rw [hsa]
          simp [List.filter_cons, hfa]
      | ok u =>
          cases u
          have hsa : (loadFontStep fs dir acc a).2 = acc.2 + 1 := by
            simp only [loadFontStep, hv]
          have hta : fontValidates fs dir a = true := by
            simp only [fontValidates, hv]
          rw [hsa]
          simp [List.filter_cons, hta]
          omega

/-- C8: `LoadFonts` on a fresh cache reports success (`nil` error) for every
filesystem and configuration, skips exactly the allowed names whose font
files fail validation, leaves the cache containing exactly the allowed names
whose files validate, and counts them. The spec §8 scenario: allowed
`["standard", "doom", "missing-file"]` with `missing-file.flf` absent yields
a cache containing exactly {doom, standard} and a count of 2. -/
theorem C8_loadFonts_skips_invalid (fs : FileSystem) (cfg : FontConfig) :
    (LoadFonts fs NewFontCache cfg).2.2 = none ∧
    (LoadFonts fs NewFontCache cfg).2.1 =
      (cfg.Allowed.filter (fontValidates fs cfg.Path)).length ∧
    (∀ name, (GetFont (LoadFonts fs NewFontCache cfg).1 name).isSome = true ↔
      name ∈ cfg.Allowed ∧ fontValidates fs cfg.Path name = true) ∧
    (LoadFonts scenarioFS NewFontCache scenarioCfg).1.fonts =
      [("standard", ⟨"standard", "./fonts/standard.flf"⟩),
       ("doom", ⟨"doom", "./fonts/doom.flf"⟩)] ∧
    (LoadFonts scenarioFS NewFontCache scenarioCfg).2.1 = 2 := by
  refine ⟨rfl, ?_, ?_, by rfl, by rfl⟩
  · have h := foldl_loadFontStep_count fs cfg.Path cfg.Allowed (NewFontCache, 0)
    simpa [LoadFonts] using h
  · intro name
    have h := foldl_loadFontStep_lookup fs cfg.Path cfg.Allowed (NewFontCache, 0) name
    simpa [LoadFonts, GetFont, NewFontCache, lookupFont] using h

end ShoutSh
